import Mathlib

/-!
# Verification of the YamlDB document store

A shallow embedding of `src/yamldb/YamlDB.py`.  The store keeps a nested
dictionary (`self.data`), addressed through dotted-path keys, and saves it
to a backing yaml file.  Python dictionaries preserve insertion order, so a
document is modelled as an association list of string keys and values; the
yaml value universe (null, bool, int, str, list, dict) is modelled by the
inductive type `Value`.

The public operations modelled here, each translated line by line from the
Python source:

* `set` (`YamlDB.set`, with the textual true/false coercion and the
  parent-creating walk),
* `__getitem__` (`getitemData`), `get` (`getOp`, the write-on-miss helper),
* `__contains__` (`containsOp`),
* `delete` (`deleteData`, including the suppressed exceptions),
* `get_keys`/`keys` (`get_keys_aux`/`keysData`),
* `__len__` (`len__`/`lenBuiltin`),
* `__init__`/`save`/`flush`/`clear` as transitions on a store state `DB`
  that carries the in-memory document, the backend mode and the contents
  of the backing file.

Python exceptions are modelled with `Except Err`: a dictionary lookup miss
raises `KeyError` (`Err.keyErr`), indexing or assigning into a non-dict
raises `TypeError` (`Err.typeErr`), and the wrappers in the source convert
caught exceptions into `ValueError` (`Err.valueErr`).
-/

/-- A yaml value: the union of shapes `yaml.safe_load` produces and the
store manipulates.  `vmap` is a Python dict in insertion order. -/
inductive Value where
  | vnull : Value
  | vbool : Bool → Value
  | vint : Int → Value
  | vstr : String → Value
  | vseq : List Value → Value
  | vmap : List (String × Value) → Value
deriving Repr

/-- A document: the root dictionary `self.data`. -/
abbrev Doc := List (String × Value)

/-- Python exceptions that the source raises or converts. -/
inductive Err where
  | keyErr : Err
  | typeErr : Err
  | valueErr : Err
deriving Repr, DecidableEq

/-- `True` exactly on dictionaries; mirrors `isinstance(value, dict)`. -/
def Value.isMap : Value → Bool
  | .vmap _ => true
  | _ => false

/-- Dict lookup `d[key]` as an `Option` (Python raises `KeyError` on `none`). -/
def lookupKey : Doc → String → Option Value
  | [], _ => none
  | (k, v) :: rest, key => if k = key then some v else lookupKey rest key

/-- Dict assignment `d[key] = val`: replace in place if present (keeping the
entry position, as Python dicts do), else append at the end. -/
def setEntry : Doc → String → Value → Doc
  | [], key, val => [(key, val)]
  | (k, v) :: rest, key, val =>
      if k = key then (k, val) :: rest else (k, v) :: setEntry rest key val

/-- Dict deletion `del d[key]` with the `KeyError` already suppressed:
removes the entry if present, else leaves the dict unchanged. -/
def removeEntry : Doc → String → Doc
  | [], _ => []
  | (k, v) :: rest, key => if k = key then rest else (k, v) :: removeEntry rest key

/-- `key.split(".")` on the character list, Python semantics: splitting the
empty string yields `[""]`, and empty segments are kept. -/
def splitDotAux : List Char → List Char → List String
  | [], acc => [String.mk acc.reverse]
  | c :: cs, acc =>
      if c = '.' then String.mk acc.reverse :: splitDotAux cs []
      else splitDotAux cs (c :: acc)

/-- `key.split(".")`.  The result is `[key]` exactly when `key` has no dot,
so matching on it also decides the source's `if "." in key` test. -/
def splitDot (s : String) : List String := splitDotAux s.data []

/-- `keys[:-1]`: every segment but the last. -/
def initSegs : List String → List String
  | [] => []
  | [_] => []
  | x :: xs => x :: initSegs xs

/-- `keys[-1]` (and, applied to `keys[:-1]`, the loop variable `key` left
over after `for key in keys[:-1]`). -/
def lastSeg : List String → String
  | [] => ""
  | [x] => x
  | _ :: xs => lastSeg xs

/-- `value.lower()` for strings. -/
def lowerStr (s : String) : String := String.mk (s.data.map Char.toLower)

/-- The coercion at the top of `YamlDB.set`: a string that lowercases to
`"true"`/`"false"` becomes a boolean; on every other value the attribute
error from `.lower()` is swallowed and the value is kept. -/
def coerceBool : Value → Value
  | .vstr s =>
      if lowerStr s = "true" then .vbool true
      else if lowerStr s = "false" then .vbool false
      else .vstr s
  | v => v

/-- The parent-creating walk of `YamlDB.set` for a dotted key: descend the
parent segments, inserting an empty dict where a segment is absent, and
assign the value at the last segment.  On a non-dict node every branch of
the Python code raises `TypeError` (`in` on a number raises; substring hits
on a string and membership hits on a list are followed by an indexing or
item-assignment that raises), so every non-dict case is `Err.typeErr`. -/
def setWalk : Value → List String → String → Value → Except Err Value
  | .vmap m, [], l, v => .ok (.vmap (setEntry m l v))
  | .vmap m, p :: rest, l, v =>
      match lookupKey m p with
      | none =>
          match setWalk (.vmap []) rest l v with
          | .ok sub => .ok (.vmap (setEntry m p sub))
          | .error e => .error e
      | some u =>
          match setWalk u rest l v with
          | .ok sub => .ok (.vmap (setEntry m p sub))
          | .error e => .error e
  | _, _, _, _ => .error .typeErr

/-- `YamlDB.set` on the document: coerce the value, then either a direct
top-level assignment (no dot in the key) or the parent-creating walk.  The
`except` clauses of the source convert every raised exception into a
`ValueError`. -/
def setData (d : Doc) (key : String) (value : Value) : Except Err Doc :=
  match splitDot key with
  | [] => .error .valueErr
  | [s] => .ok (setEntry d s (coerceBool value))
  | s1 :: s2 :: rest =>
      match setWalk (.vmap d) (initSegs (s1 :: s2 :: rest))
          (lastSeg (s1 :: s2 :: rest)) (coerceBool value) with
      | .ok (.vmap d2) => .ok d2
      | _ => .error .valueErr

/-- The traversal of `YamlDB.__getitem__`: repeated indexing from a node.
A miss in a dict is `KeyError`; indexing a non-dict by a string segment is
`TypeError`. -/
def getPath : Value → List String → Except Err Value
  | v, [] => .ok v
  | .vmap m, s :: rest =>
      match lookupKey m s with
      | some u => getPath u rest
      | none => .error .keyErr
  | _, _ :: _ => .error .typeErr

/-- `YamlDB.__getitem__`: traverse the split key from the root; re-raise
`KeyError` as `KeyError`, convert any other exception to `ValueError`. -/
def getitemData (d : Doc) (key : String) : Except Err Value :=
  match getPath (.vmap d) (splitDot key) with
  | .ok v => .ok v
  | .error .keyErr => .error .keyErr
  | .error _ => .error .valueErr

/-- The walk of `YamlDB.delete` for a dotted key: descend the parent
segments by plain indexing, then `del` the given key from the final node.
`none` models any exception on the way (all are suppressed by the caller).
Note the node reached is the one at `keys[:-1]` while the deleted key is
the one handed in by the caller. -/
def delWalk : Value → List String → String → Option Value
  | .vmap m, [], delKey =>
      match lookupKey m delKey with
      | some _ => some (.vmap (removeEntry m delKey))
      | none => none
  | .vmap m, s :: rest, delKey =>
      match lookupKey m s with
      | some u =>
          match delWalk u rest delKey with
          | some u2 => some (.vmap (setEntry m s u2))
          | none => none
      | none => none
  | _, _, _ => none

/-- `YamlDB.delete` on the document.  For a dotted key the source walks
`keys[:-1]` and then executes `del d[key]` where `key` is the leftover
loop variable, i.e. the LAST PARENT segment (`keys[-2]`), not the computed
`delkey = keys[-1]`.  Every exception is caught and suppressed, so failure
leaves the document unchanged and nothing ever propagates. -/
def deleteData (d : Doc) (item : String) : Doc :=
  match splitDot item with
  | [] => d
  | [s] => removeEntry d s
  | s1 :: s2 :: rest =>
      match delWalk (.vmap d) (initSegs (s1 :: s2 :: rest))
          (lastSeg (initSegs (s1 :: s2 :: rest))) with
      | some (.vmap d2) => d2
      | _ => d

/-- `YamlDB.get_keys`: the accumulating recursion.  `acc` is the shared
`keys_list`; a dict value recurses with `parent` set to its own key, any
other value appends `f"{parent}.{key}"`. -/
def get_keys_aux : Doc → List String → String → List String
  | [], acc, _ => acc
  | (k, .vmap m) :: rest, acc, parent => get_keys_aux rest (get_keys_aux m acc k) parent
  | (k, .vnull) :: rest, acc, parent => get_keys_aux rest (acc ++ [parent ++ "." ++ k]) parent
  | (k, .vbool _) :: rest, acc, parent => get_keys_aux rest (acc ++ [parent ++ "." ++ k]) parent
  | (k, .vint _) :: rest, acc, parent => get_keys_aux rest (acc ++ [parent ++ "." ++ k]) parent
  | (k, .vstr _) :: rest, acc, parent => get_keys_aux rest (acc ++ [parent ++ "." ++ k]) parent
  | (k, .vseq _) :: rest, acc, parent => get_keys_aux rest (acc ++ [parent ++ "." ++ k]) parent

/-- `YamlDB.keys` = `get_keys()`: the accumulator starts as the list of ALL
top-level keys (`list(self.data.keys())`) and the initial parent is `""`. -/
def keysData (d : Doc) : List String := get_keys_aux d (d.map Prod.fst) ""

/-- The backend selector of the constructor. -/
inductive Backend where
  | file : Backend
  | memory : Backend
deriving Repr, DecidableEq

/-- The observable state of a store: the in-memory document, the backend
mode, and the contents of the backing file (`none` = file does not exist,
`some d` = file holds the serialization of `d`). -/
structure DB where
  data : Doc
  backend : Backend
  fileContents : Option Doc
deriving Repr

/-- `YamlDB.save`: writes the current document to the file unconditionally
(it does not consult the backend). -/
def saveDB (db : DB) : DB := { db with fileContents := some db.data }

/-- `YamlDB.flush`: saves only when the backend is `:file:`. -/
def flushDB (db : DB) : DB := if db.backend = .file then saveDB db else db

/-- `YamlDB.__init__`: the four-way policy on (file exists?) x (data
given?).  `save` is called in every branch except (exists, no data), which
loads instead — regardless of the chosen backend. -/
def initDB (backend : Backend) (data : Option Doc) (file : Option Doc) : DB :=
  match file, data with
  | some _, some d => saveDB { data := d, backend := backend, fileContents := file }
  | some f, none => { data := f, backend := backend, fileContents := file }
  | none, some d => saveDB { data := d, backend := backend, fileContents := none }
  | none, none => saveDB { data := [], backend := backend, fileContents := none }

/-- `YamlDB.set` on the store: mutate the document, then `flush`.  An
exception leaves the store untouched (the walk only fails before its first
insertion, see `setWalk`). -/
def setOp (db : DB) (key : String) (value : Value) : Except Err DB :=
  match setData db.data key value with
  | .ok d2 => .ok (flushDB { db with data := d2 })
  | .error e => .error e

/-- `YamlDB.delete` on the store: best effort, no flush afterwards. -/
def deleteOp (db : DB) (item : String) : DB :=
  { db with data := deleteData db.data item }

/-- `YamlDB.clear`: empty the document, then `flush`. -/
def clearOp (db : DB) : DB := flushDB { db with data := [] }

/-- `YamlDB.__getitem__` on the store. -/
def getitemOp (db : DB) (key : String) : Except Err Value := getitemData db.data key

/-- `YamlDB.__contains__`: probe with `__getitem__`, catching everything. -/
def containsOp (db : DB) (key : String) : Bool :=
  match getitemData db.data key with
  | .ok _ => true
  | .error _ => false

/-- `YamlDB.get`: a LITERAL top-level dict lookup `self.data[key]`; on
`KeyError` store the default via `self[key] = default` (which may itself
raise) and return the default. -/
def getOp (db : DB) (key : String) (dflt : Value) : Except Err (Value × DB) :=
  match lookupKey db.data key with
  | some v => .ok (v, db)
  | none =>
      match setOp db key dflt with
      | .ok db2 => .ok (dflt, db2)
      | .error e => .error e

/-- `YamlDB.keys` on the store. -/
def keysOp (db : DB) : List String := keysData db.data

/-- `YamlDB.__len__`: the source computes `len(self.data)` but has no
`return`, so the method returns `None`. -/
def len__ (db : DB) : Option Nat :=
  let _ := db.data.length
  none

/-- The built-in `len(store)`: Python requires `__len__` to return an
integer and raises `TypeError` when it returns `None`. -/
def lenBuiltin (db : DB) : Except Err Nat :=
  match len__ db with
  | some n => .ok n
  | none => .error .typeErr

/-- A clean read-only path lookup, used to state hypotheses about which
values exist along a path (not part of the source; the source functions
are compared against it). -/
def lookupPath : Value → List String → Option Value
  | v, [] => some v
  | .vmap m, s :: rest =>
      match lookupKey m s with
      | some u => lookupPath u rest
      | none => none
  | _, _ :: _ => none

/-- Specification-side description of the leaf entries that
`get_keys_aux` appends: depth-first over the document, a dict recurses
with its own key as the new parent, any other value contributes
`"<parent>.<key>"`. -/
def leafEntries : String → Doc → List String
  | _, [] => []
  | parent, (k, .vmap m) :: rest => leafEntries k m ++ leafEntries parent rest
  | parent, (k, .vnull) :: rest => (parent ++ "." ++ k) :: leafEntries parent rest
  | parent, (k, .vbool _) :: rest => (parent ++ "." ++ k) :: leafEntries parent rest
  | parent, (k, .vint _) :: rest => (parent ++ "." ++ k) :: leafEntries parent rest
  | parent, (k, .vstr _) :: rest => (parent ++ "." ++ k) :: leafEntries parent rest
  | parent, (k, .vseq _) :: rest => (parent ++ "." ++ k) :: leafEntries parent rest

example : splitDot "a.b.c" = ["a", "b", "c"] := rfl

example : splitDot "" = [""] := rfl

example : setData [] "a.b" (.vstr "v") = .ok [("a", .vmap [("b", .vstr "v")])] := rfl

example : coerceBool (.vstr "TrUe") = .vbool true := rfl

example : keysData [("x", .vint 1), ("a", .vmap [("b", .vint 2)])]
    = ["x", "a", ".x", "a.b"] := by simp [keysData, get_keys_aux]

/-! ## Helper lemmas -/

theorem lookupKey_setEntry_self (m : Doc) (key : String) (val : Value) :
    lookupKey (setEntry m key val) key = some val := by
  induction m with
  | nil => simp [setEntry, lookupKey]
  | cons hd tl ih =>
      obtain ⟨k, v⟩ := hd
      by_cases h : k = key
      · simp [setEntry, lookupKey, h]
      · simp [setEntry, lookupKey, h, ih]

theorem setWalk_nonmap (loc : Value) (h : loc.isMap = false)
    (ps : List String) (l : String) (v : Value) :
    setWalk loc ps l v = .error .typeErr := by
  cases loc <;> cases ps <;> first
    | rfl
    | simp [Value.isMap] at h

theorem setWalk_vmap_of_ok (m : Doc) (ps : List String) (l : String) (v : Value)
    (w : Value) (h : setWalk (.vmap m) ps l v = .ok w) : ∃ m2, w = .vmap m2 := by
  cases ps with
  | nil =>
      simp only [setWalk] at h
      exact ⟨setEntry m l v, (Except.ok.injEq _ _ ▸ h).symm⟩
  | cons p rest =>
      cases hk : lookupKey m p with
      | none =>
          simp only [setWalk, hk] at h
          cases hs : setWalk (.vmap []) rest l v with
          | ok sub => rw [hs] at h; simp at h; exact ⟨setEntry m p sub, h.symm⟩
          | error e => rw [hs] at h; simp at h
      | some u =>
          simp only [setWalk, hk] at h
          cases hs : setWalk u rest l v with
          | ok sub => rw [hs] at h; simp at h; exact ⟨setEntry m p sub, h.symm⟩
          | error e => rw [hs] at h; simp at h

theorem setWalk_err_of_lookup (ps : List String) :
    ∀ (loc : Value) (n : Nat) (u : Value), 1 ≤ n → n ≤ ps.length →
      lookupPath loc (ps.take n) = some u → u.isMap = false →
      ∀ (l : String) (v : Value), setWalk loc ps l v = .error .typeErr := by
  induction ps with
  | nil =>
      intro loc n u h1 h2 _ _ _ _
      simp at h2
      omega
  | cons p rest ih =>
      intro loc n u h1 h2 hl hm l v
      cases loc with
      | vmap m =>
          obtain ⟨n0, rfl⟩ : ∃ n0, n = n0 + 1 := ⟨n - 1, by omega⟩
          rw [List.take_succ_cons] at hl
          simp only [lookupPath] at hl
          cases hk : lookupKey m p with
          | none => rw [hk] at hl; exact absurd hl (by simp)
          | some u0 =>
              rw [hk] at hl
              have hsub : setWalk u0 rest l v = .error .typeErr := by
                cases n0 with
                | zero =>
                    simp only [List.take_zero, lookupPath] at hl
                    obtain rfl : u0 = u := by injection hl
                    exact setWalk_nonmap u0 hm rest l v
                | succ n1 =>
                    exact ih u0 (n1 + 1) u (by omega) (by simpa using h2) hl hm l v
              simp [setWalk, hk, hsub]
      | vnull => rfl
      | vbool b => rfl
      | vint i => rfl
      | vstr s => rfl
      | vseq l2 => rfl

theorem getPath_after_setWalk : ∀ (ps : List String) (loc loc2 : Value) (l : String) (v : Value),
    setWalk loc ps l v = .ok loc2 → getPath loc2 (ps ++ [l]) = .ok v := by
  intro ps
  induction ps with
  | nil =>
      intro loc loc2 l v h
      cases loc with
      | vmap m =>
          simp only [setWalk] at h
          obtain rfl : Value.vmap (setEntry m l v) = loc2 := by injection h
          simp [getPath, lookupKey_setEntry_self]
      | vnull => simp [setWalk] at h
      | vbool b => simp [setWalk] at h
      | vint i => simp [setWalk] at h
      | vstr s => simp [setWalk] at h
      | vseq l2 => simp [setWalk] at h
  | cons p rest ih =>
      intro loc loc2 l v h
      cases loc with
      | vmap m =>
          cases hk : lookupKey m p with
          | none =>
              simp only [setWalk, hk] at h
              cases hs : setWalk (.vmap []) rest l v with
              | ok sub =>
                  rw [hs] at h
                  obtain rfl : Value.vmap (setEntry m p sub) = loc2 := by injection h
                  have := ih (.vmap []) sub l v hs
                  simp [getPath, lookupKey_setEntry_self, this]
              | error e => rw [hs] at h; simp at h
          | some u =>
              simp only [setWalk, hk] at h
              cases hs : setWalk u rest l v with
              | ok sub =>
                  rw [hs] at h
                  obtain rfl : Value.vmap (setEntry m p sub) = loc2 := by injection h
                  have := ih u sub l v hs
                  simp [getPath, lookupKey_setEntry_self, this]
              | error e => rw [hs] at h; simp at h
      | vnull => simp [setWalk] at h
      | vbool b => simp [setWalk] at h
      | vint i => simp [setWalk] at h
      | vstr s => simp [setWalk] at h
      | vseq l2 => simp [setWalk] at h

theorem initSegs_append_lastSeg : ∀ (s : String) (rest : List String),
    initSegs (s :: rest) ++ [lastSeg (s :: rest)] = s :: rest := by
  intro s rest
  induction rest generalizing s with
  | nil => rfl
  | cons s2 rest2 ih => simpa [initSegs, lastSeg] using ih s2

theorem flushDB_data (db : DB) : (flushDB db).data = db.data := by
  by_cases h : db.backend = .file <;> simp [flushDB, saveDB, h]

theorem get_keys_aux_eq (m : Doc) (acc : List String) (parent : String) :
    get_keys_aux m acc parent = acc ++ leafEntries parent m := by
  induction m, acc, parent using get_keys_aux.induct with
  | case1 acc parent => simp [get_keys_aux, leafEntries]
  | case2 k mm rest acc parent ih1 ih2 =>
      rw [get_keys_aux, leafEntries, ih1] at *
      rw [ih2, ih1]
      simp
  | case3 k rest acc parent ih => rw [get_keys_aux, leafEntries, ih]; simp
  | case4 k b rest acc parent ih => rw [get_keys_aux, leafEntries, ih]; simp
  | case5 k i rest acc parent ih => rw [get_keys_aux, leafEntries, ih]; simp
  | case6 k s rest acc parent ih => rw [get_keys_aux, leafEntries, ih]; simp
  | case7 k l rest acc parent ih => rw [get_keys_aux, leafEntries, ih]; simp

/-! ## Claims -/

/-- C1: the claimed set/get round-trip fails for multi-segment keys.
Evaluation at the failing input: on an empty store, `set("a.b", "v")`
stores the nested value, but `get("a.b")` performs a literal top-level
lookup of the key `"a.b"`, misses, writes the default (`None`) over the
path `a.b` and returns the default instead of `"v"`. -/
theorem c1_get_after_dotted_set_returns_default :
    setOp ⟨[], Backend.memory, none⟩ "a.b" (.vstr "v")
      = .ok ⟨[("a", .vmap [("b", .vstr "v")])], Backend.memory, none⟩
    ∧ getOp ⟨[("a", .vmap [("b", .vstr "v")])], Backend.memory, none⟩ "a.b" .vnull
      = .ok (.vnull, ⟨[("a", .vmap [("b", .vnull)])], Backend.memory, none⟩)
    ∧ Value.vnull ≠ Value.vstr "v" :=
  ⟨rfl, rfl, fun h => nomatch h⟩

/-- C2: deleting a fully-present multi-segment leaf does NOT remove the
final segment's key.  Evaluation at the failing input: with document
`{"a": {"b": 1, "c": 2}}`, the leaf `a.b` is present, yet `delete("a.b")`
leaves the document unchanged — the source executes `del d[key]` with the
leftover loop variable (`"a"`, the segment before last) instead of the
computed `delkey`, and the resulting `KeyError` is suppressed. -/
theorem c2_delete_leaves_present_leaf :
    getitemData [("a", .vmap [("b", .vint 1), ("c", .vint 2)])] "a.b" = .ok (.vint 1)
    ∧ deleteData [("a", .vmap [("b", .vint 1), ("c", .vint 2)])] "a.b"
      = [("a", .vmap [("b", .vint 1), ("c", .vint 2)])] :=
  ⟨rfl, rfl⟩

/-- C3 counterexample: on `{"x": 1, "a": {"b": 2}}`, `keys()` returns
`["x", "a", ".x", "a.b"]`: the non-leaf top-level key `"a"` is listed
(it is a mapping, as the second conjunct shows), and the top-level leaf
`x` is listed twice — once bare and once as `".x"` with a separator —
contradicting the claim that exactly the leaf paths appear, each once,
with bare top-level names. -/
theorem c3_counterexample :
    keysData [("x", .vint 1), ("a", .vmap [("b", .vint 2)])] = ["x", "a", ".x", "a.b"]
    ∧ lookupKey [("x", .vint 1), ("a", .vmap [("b", .vint 2)])] "a"
      = some (.vmap [("b", .vint 2)]) := by
  exact ⟨by simp [keysData, get_keys_aux], rfl⟩

/-- C3 (amended): `keys()` returns ALL top-level keys (mapping-valued ones
included), followed by one entry per leaf in depth-first order, each
formatted `"<parent>.<key>"` where `<parent>` is the immediate parent key —
the empty string for top-level leaves, which therefore appear a second
time as `".<key>"`. -/
theorem c3_amended_keys_structure (d : Doc) :
    keysData d = d.map Prod.fst ++ leafEntries "" d :=
  get_keys_aux_eq d (d.map Prod.fst) ""

/-- C4 counterexample: on a file-backed store holding `{"a": 1}` with the
file in sync, `delete("a")` empties the in-memory document but performs no
persist, so the backing medium still holds the pre-delete serialization —
contradicting the claim that every mutating operation is followed by a
full persist. -/
theorem c4_counterexample :
    (deleteOp ⟨[("a", .vint 1)], Backend.file, some [("a", .vint 1)]⟩ "a").data = []
    ∧ (deleteOp ⟨[("a", .vint 1)], Backend.file, some [("a", .vint 1)]⟩ "a").fileContents
      = some [("a", .vint 1)]
    ∧ (deleteOp ⟨[("a", .vint 1)], Backend.file, some [("a", .vint 1)]⟩ "a").fileContents
      ≠ some (deleteOp ⟨[("a", .vint 1)], Backend.file, some [("a", .vint 1)]⟩ "a").data := by
  refine ⟨rfl, rfl, ?_⟩
  intro h
  have h2 : (some [("a", Value.vint 1)] : Option Doc) = some [] := h
  simp at h2

/-- C4 (amended): on a file-backed store, `set` (when it succeeds) and
`clear` are each immediately followed by a full persist, so afterwards the
file holds the serialization of the current document; `delete` performs no
persist and leaves the backing medium unchanged. -/
theorem c4_amended_persist (db db2 : DB) (k : String) (v : Value)
    (hb : db.backend = Backend.file)
    (hset : setOp db k v = .ok db2) :
    db2.fileContents = some db2.data
    ∧ (clearOp db).fileContents = some (clearOp db).data
    ∧ (deleteOp db k).fileContents = db.fileContents := by
  refine ⟨?_, ?_, rfl⟩
  · cases hsd : setData db.data k v with
    | ok d2 =>
        simp only [setOp, hsd] at hset
        have hdb2 : flushDB { db with data := d2 } = db2 := by
          injection hset
        rw [← hdb2]
        simp [flushDB, saveDB, hb]
    | error e => simp [setOp, hsd] at hset
  · simp [clearOp, flushDB, saveDB, hb]

/-- C4 witness: the amended statement instantiated at a concrete
file-backed store and a concrete successful `set`. -/
theorem c4_amended_persist_witness :
    (⟨[("a", .vint 1), ("b", .vint 2)], Backend.file,
        some [("a", .vint 1), ("b", .vint 2)]⟩ : DB).fileContents
      = some (⟨[("a", .vint 1), ("b", .vint 2)], Backend.file,
        some [("a", .vint 1), ("b", .vint 2)]⟩ : DB).data
    ∧ (clearOp ⟨[("a", .vint 1)], Backend.file, some [("a", .vint 1)]⟩).fileContents
      = some (clearOp ⟨[("a", .vint 1)], Backend.file, some [("a", .vint 1)]⟩).data
    ∧ (deleteOp ⟨[("a", .vint 1)], Backend.file, some [("a", .vint 1)]⟩ "b").fileContents
      = (⟨[("a", .vint 1)], Backend.file, some [("a", .vint 1)]⟩ : DB).fileContents :=
  c4_amended_persist ⟨[("a", .vint 1)], Backend.file, some [("a", .vint 1)]⟩
    ⟨[("a", .vint 1), ("b", .vint 2)], Backend.file, some [("a", .vint 1), ("b", .vint 2)]⟩
    "b" (.vint 2) rfl rfl

/-- C5 counterexample: with document `{"a": 1}`, the key `"a.b"` is not
present (`contains` is false), yet `get("a.b", default)` does not return
the default: the write-on-miss `self[key] = default` walks into the
existing non-dict value at `a` and raises `ValueError`, which `get` does
not catch. -/
theorem c5_counterexample :
    containsOp ⟨[("a", .vint 1)], Backend.memory, none⟩ "a.b" = false
    ∧ getOp ⟨[("a", .vint 1)], Backend.memory, none⟩ "a.b" .vnull = .error .valueErr :=
  ⟨rfl, rfl⟩

/-- C5 (amended): for a key `k` that is not present, `contains(k)` is false
and does not mutate (it is a pure probe); and PROVIDED the literal
top-level lookup misses and the write of the default at `k` succeeds,
`get(k, default)` returns the default, stores the (boolean-coerced)
default at `k`, and a subsequent `contains(k)` is true.  When the write
fails (an existing non-mapping value sits on the path), `get` raises
`ValueError` instead (see the counterexample). -/
theorem c5_amended_miss_behavior (db db2 : DB) (k : String) (dflt : Value)
    (hc : containsOp db k = false)
    (hmiss : lookupKey db.data k = none)
    (hset : setOp db k dflt = .ok db2) :
    containsOp db k = false
    ∧ getOp db k dflt = .ok (dflt, db2)
    ∧ containsOp db2 k = true := by
  refine ⟨hc, by simp [getOp, hmiss, hset], ?_⟩
  cases hsd : setData db.data k dflt with
  | error e => simp [setOp, hsd] at hset
  | ok d2 =>
      have hdb2 : flushDB { db with data := d2 } = db2 := by
        simp only [setOp, hsd] at hset
        injection hset
      have hdata : db2.data = d2 := by rw [← hdb2, flushDB_data]
      have hget : ∃ w, getitemData db2.data k = .ok w := by
        rw [hdata]
        rcases hsp : splitDot k with _ | ⟨s, _ | ⟨s2, rest⟩⟩
        · simp [setData, hsp] at hsd
        · simp only [setData, hsp] at hsd
          have hd2 : setEntry db.data s (coerceBool dflt) = d2 := by
            injection hsd
          refine ⟨coerceBool dflt, ?_⟩
          rw [← hd2]
          simp [getitemData, hsp, getPath, lookupKey_setEntry_self]
        · simp only [setData, hsp] at hsd
          cases hsw : setWalk (.vmap db.data) (initSegs (s :: s2 :: rest))
              (lastSeg (s :: s2 :: rest)) (coerceBool dflt) with
          | error e => rw [hsw] at hsd; simp at hsd
          | ok w =>
              rw [hsw] at hsd
              obtain ⟨m2, rfl⟩ := setWalk_vmap_of_ok _ _ _ _ _ hsw
              simp at hsd
              have hgp := getPath_after_setWalk _ _ _ _ _ hsw
              rw [initSegs_append_lastSeg] at hgp
              rw [← hsd]
              exact ⟨coerceBool dflt, by simp [getitemData, hsp, hgp]⟩
      obtain ⟨w, hw⟩ := hget
      simp [containsOp, hw]

/-- C5 witness: the amended statement at the empty store and the key
`"a.b"` with default `None`. -/
theorem c5_witness :
    containsOp ⟨[], Backend.memory, none⟩ "a.b" = false
    ∧ getOp ⟨[], Backend.memory, none⟩ "a.b" .vnull
      = .ok (.vnull, ⟨[("a", .vmap [("b", .vnull)])], Backend.memory, none⟩)
    ∧ containsOp ⟨[("a", .vmap [("b", .vnull)])], Backend.memory, none⟩ "a.b" = true :=
  c5_amended_miss_behavior ⟨[], Backend.memory, none⟩
    ⟨[("a", .vmap [("b", .vnull)])], Backend.memory, none⟩ "a.b" .vnull rfl rfl rfl

/-- C6: `delete` never propagates an error (it is modelled as a total
function), but deleting an ABSENT key is not a no-op.  Evaluation at the
failing input: with document `{"a": {"b": {"b": 5}}}` the key `"a.b.c"` is
absent (first conjunct), yet `delete("a.b.c")` removes the sibling entry
`a.b.b` — the source deletes the key named by the second-to-last segment
from the node at `keys[:-1]` instead of deleting `keys[-1]`. -/
theorem c6_delete_absent_key_mutates :
    getitemData [("a", .vmap [("b", .vmap [("b", .vint 5)])])] "a.b.c" = .error .keyErr
    ∧ deleteData [("a", .vmap [("b", .vmap [("b", .vint 5)])])] "a.b.c"
      = [("a", .vmap [("b", .vmap [])])] :=
  ⟨rfl, rfl⟩

/-- C7: a `set` through a multi-segment path fails with `ValueError`
whenever some existing value at a proper, nonempty prefix of the parent
segments is not a mapping (a Scalar or Sequence): the walk reaches that
value and every Python branch there raises, the exception is converted to
`ValueError`, and no document is produced — in particular the non-mapping
value is never silently replaced.  Auto-vivification inserts an empty dict
only where a segment is absent. -/
theorem c7_set_rejects_nonmap_intermediate (d : Doc) (key : String) (value : Value)
    (n : Nat) (u : Value)
    (hmulti : 2 ≤ (splitDot key).length)
    (hn1 : 1 ≤ n) (hn2 : n ≤ (initSegs (splitDot key)).length)
    (hu : lookupPath (.vmap d) ((initSegs (splitDot key)).take n) = some u)
    (hnm : u.isMap = false) :
    setData d key value = .error .valueErr := by
  rcases hsp : splitDot key with _ | ⟨s1, _ | ⟨s2, rest⟩⟩
  · rw [hsp] at hmulti; simp at hmulti
  · rw [hsp] at hmulti; simp at hmulti
  · rw [hsp] at hn2 hu
    have hw := setWalk_err_of_lookup (initSegs (s1 :: s2 :: rest)) (.vmap d) n u hn1 hn2 hu hnm
      (lastSeg (s1 :: s2 :: rest)) (coerceBool value)
    simp [setData, hsp, hw]

/-- C7 witness: the theorem at document `{"a": 5}` and key `"a.b"`, where
the existing intermediate `a` is the scalar `5`. -/
theorem c7_witness :
    Value.isMap (.vint 5) = false
    ∧ setData [("a", .vint 5)] "a.b" (.vint 0) = .error .valueErr :=
  ⟨rfl, c7_set_rejects_nonmap_intermediate [("a", .vint 5)] "a.b" (.vint 0) 1 (.vint 5)
    (by decide) (by decide) (by decide) rfl rfl⟩

/-- C8 counterexample: there is no `InvalidPathError` anywhere in the
source; the empty key does not make path-addressed operations fail.
`set("", 1)` succeeds and stores the value under the literal empty
top-level key, `__getitem__("")` then returns it, and `delete("")`
removes it. -/
theorem c8_counterexample :
    setData [] "" (.vint 1) = .ok [("", .vint 1)]
    ∧ getitemData [("", .vint 1)] "" = .ok (.vint 1)
    ∧ deleteData [("", .vint 1)] "" = [] :=
  ⟨rfl, rfl, rfl⟩

/-- C8 (amended): the empty string is treated as an ordinary
single-segment key — `"".split(".")` yields `[""]`, so `set` assigns the
(coerced) value at the literal key `""`, `__getitem__` is a plain lookup
of `""` (raising `KeyError` only when absent), and `delete` removes the
entry `""` if present.  No `InvalidPathError` exists in the code. -/
theorem c8_amended_empty_key_ordinary (d : Doc) (v : Value) :
    setData d "" v = .ok (setEntry d "" (coerceBool v))
    ∧ getitemData d "" = (match lookupKey d "" with
        | some u => .ok u
        | none => .error Err.keyErr)
    ∧ deleteData d "" = removeEntry d "" := by
  refine ⟨rfl, ?_, rfl⟩
  cases h : lookupKey d "" with
  | some u => simp [getitemData, getPath, h]
  | none => simp [getitemData, getPath, h]

/-- C9 counterexample: constructing a `:memory:` store with no backing
file and no initial data WRITES the backing file (`save` is called in the
constructor regardless of the backend): the file goes from non-existent to
holding the empty document — contradicting the claim that construction in
memory mode does not create the backing file. -/
theorem c9_counterexample :
    (initDB Backend.memory none none).fileContents = some [] := rfl

/-- C9 (amended): in `:memory:` mode, `flush` is a no-op and no mutating
operation (`set`, `delete`, `clear`) touches the backing medium; but
construction itself writes the backing file in every branch except (file
exists, no initial data given), which only loads: with initial data the
file is overwritten with it, and with neither file nor data an empty
document is written. -/
theorem c9_amended_memory_behavior (db db2 : DB) (k : String) (v : Value) (d0 f0 : Doc)
    (hb : db.backend = Backend.memory)
    (hset : setOp db k v = .ok db2) :
    flushDB db = db
    ∧ db2.fileContents = db.fileContents
    ∧ (deleteOp db k).fileContents = db.fileContents
    ∧ (clearOp db).fileContents = db.fileContents
    ∧ initDB Backend.memory (some d0) (some f0) = ⟨d0, Backend.memory, some d0⟩
    ∧ initDB Backend.memory none (some f0) = ⟨f0, Backend.memory, some f0⟩
    ∧ initDB Backend.memory (some d0) none = ⟨d0, Backend.memory, some d0⟩
    ∧ initDB Backend.memory none none = ⟨[], Backend.memory, some []⟩ := by
  refine ⟨by simp [flushDB, hb], ?_, rfl, by simp [clearOp, flushDB, hb], rfl, rfl, rfl, rfl⟩
  cases hsd : setData db.data k v with
  | error e => simp [setOp, hsd] at hset
  | ok d2 =>
      have hdb2 : flushDB { db with data := d2 } = db2 := by
        simp only [setOp, hsd] at hset
        injection hset
      rw [← hdb2]
      simp [flushDB, hb]

/-- C9 witness: the amended statement at a concrete memory-mode store, a
concrete successful `set`, and concrete construction inputs. -/
theorem c9_witness :
    flushDB ⟨[("a", .vint 1)], Backend.memory, some []⟩
      = ⟨[("a", .vint 1)], Backend.memory, some []⟩
    ∧ (⟨[("a", .vint 2)], Backend.memory, some []⟩ : DB).fileContents
      = (⟨[("a", .vint 1)], Backend.memory, some []⟩ : DB).fileContents
    ∧ (deleteOp ⟨[("a", .vint 1)], Backend.memory, some []⟩ "a").fileContents
      = (⟨[("a", .vint 1)], Backend.memory, some []⟩ : DB).fileContents
    ∧ (clearOp ⟨[("a", .vint 1)], Backend.memory, some []⟩).fileContents
      = (⟨[("a", .vint 1)], Backend.memory, some []⟩ : DB).fileContents
    ∧ initDB Backend.memory (some [("x", .vint 7)]) (some [("y", .vint 8)])
      = ⟨[("x", .vint 7)], Backend.memory, some [("x", .vint 7)]⟩
    ∧ initDB Backend.memory none (some [("y", .vint 8)])
      = ⟨[("y", .vint 8)], Backend.memory, some [("y", .vint 8)]⟩
    ∧ initDB Backend.memory (some [("x", .vint 7)]) none
      = ⟨[("x", .vint 7)], Backend.memory, some [("x", .vint 7)]⟩
    ∧ initDB Backend.memory none none = ⟨[], Backend.memory, some []⟩ :=
  c9_amended_memory_behavior ⟨[("a", .vint 1)], Backend.memory, some []⟩
    ⟨[("a", .vint 2)], Backend.memory, some []⟩ "a" (.vint 2)
    [("x", .vint 7)] [("y", .vint 8)] rfl rfl

/-- C10: `__len__` evaluates `len(self.data)` but falls off the end of the
method, returning `None`; the built-in `len()` demands an integer from
`__len__` and raises `TypeError` on `None`, so taking the length of a
store always fails with a type error, whatever the document holds. -/
theorem c10_len_always_type_error (db : DB) : lenBuiltin db = .error Err.typeErr := rfl
